import Mathlib

/-!
Verification development for the PokeSearch backend (`backend/main.py`).

The development shallowly embeds the pure content of the backend:
the grade classifier `detect_grade_from_title`, the marketplace client
`ebay_search_items`, the price aggregation / image resolution loop
`gather_prices_by_grade`, the average step of `api_search` / `api_refresh`,
the per-(user, card) record store operations `api_search`, `api_refresh`,
`api_confirm_image`, the `expired` flag of `api_saved`, and the login
handler `login_for_access_token`.

Modelling conventions:
* Python floats are modelled as exact rationals (`ℚ`); `round(x, 2)` is
  modelled as round-half-to-even at two decimal places.
* ISO timestamps are modelled as absolute times in seconds (`ℚ`);
  `timedelta(days=d)` is `d * 86400` seconds.
* The external HTTP world (eBay response, the two image providers) is a
  value of an explicit environment type: each claim quantifies over it.
* The regular expressions of the classifier are embedded as executable
  `re.search` existence semantics over the character list (ASCII fragment
  of `\w`, `\s`, `\d`, which covers every input exercised below).
-/

namespace PokeSearch

/-! ### Constants (backend/main.py, lines 36-39) -/

def SEARCH_LIMIT_PER_GRADE : Nat := 3

def SAVED_SEARCH_EXPIRY_DAYS : Nat := 7

/-- `ACCESS_TOKEN_EXPIRE_MINUTES` defaults to 60 in the environment. -/
def ACCESS_TOKEN_EXPIRE_MINUTES : Nat := 60

/-! ### Grade classifier (`detect_grade_from_title`, lines 138-150)

The three patterns are `\b(psa|bgs|cgc)[\s\-]?(\d{1,2}(?:\.\d+)?)\b` over the
lower-cased title.  We embed `re.search` as "there exists a start position
with a word boundary before the literal such that the rest of the pattern
matches", which is exactly when Python's backtracking search succeeds. -/

/-- Python regex word character `\w` (ASCII fragment). -/
def isWordChar (c : Char) : Bool := c.isAlpha || c.isDigit || c == '_'

/-- Python regex whitespace `\s` (ASCII fragment). -/
def isPySpace (c : Char) : Bool :=
  c == ' ' || c == '\t' || c == '\n' || c == '\r' || c == '\x0b' || c == '\x0c'

/-- The character class `[\s\-]` of the separator. -/
def isSepChar (c : Char) : Bool := isPySpace c || c == '-'

/-- `\b` directly after a word character: holds at end of input or before a
non-word character. -/
def boundaryAfterWord : List Char → Bool
  | [] => true
  | c :: _ => !isWordChar c

/-- `\d+\b`: a nonempty digit run, some prefix of which is followed by a
word boundary (equivalently: one-or-more digits then a boundary). -/
def digitsThenBoundary : List Char → Bool
  | [] => false
  | c :: rest => c.isDigit && (boundaryAfterWord rest || digitsThenBoundary rest)

/-- `(?:\.\d+)?\b` after the integer digits of the grade. -/
def afterIntDigits (l : List Char) : Bool :=
  boundaryAfterWord l ||
    (match l with
     | '.' :: rest => digitsThenBoundary rest
     | _ => false)

/-- `\d{1,2}(?:\.\d+)?\b`: one or two digits, optional decimal part, then a
word boundary. -/
def gradeNumber : List Char → Bool
  | [] => false
  | c :: rest =>
      c.isDigit &&
        (afterIntDigits rest ||
          (match rest with
           | d :: rest2 => d.isDigit && afterIntDigits rest2
           | [] => false))

/-- `[\s\-]?` followed by the grade number. -/
def sepThenNumber (l : List Char) : Bool :=
  gradeNumber l ||
    (match l with
     | c :: rest => isSepChar c && gradeNumber rest
     | [] => false)

/-- The literal company abbreviation followed by the rest of the pattern. -/
def litThenNumber : List Char → List Char → Bool
  | [], l => sepThenNumber l
  | _ :: _, [] => false
  | c :: lit, d :: l => c == d && litThenNumber lit l

/-- `re.search` of `\b<lit>[\s\-]?\d{1,2}(?:\.\d+)?\b` on a suffix of the
text; `prevWord` records whether the character just before that suffix is a
word character (`false` at the start of the text).  Since the literal starts
with a (word) letter, the leading `\b` holds exactly when `prevWord` is
false. -/
def searchToken (lit : List Char) : Bool → List Char → Bool
  | prevWord, [] => !prevWord && litThenNumber lit []
  | prevWord, c :: rest =>
      (!prevWord && litThenNumber lit (c :: rest)) ||
        searchToken lit (isWordChar c) rest

def psaLit : List Char := ['p', 's', 'a']

def bgsLit : List Char := ['b', 'g', 's']

def cgcLit : List Char := ['c', 'g', 'c']

/-- `title.lower()`, character by character (ASCII lowering agrees with
Python's `str.lower` on the inputs exercised here). -/
def lowerChars (title : String) : List Char := title.toList.map Char.toLower

/-- `detect_grade_from_title` (lines 138-150): lower-case the title and test
the three patterns in declaration order PSA, BGS, CGC; first match wins;
empty title or no match yields `"raw"`. -/
def detect_grade_from_title (title : String) : String :=
  if title = "" then "raw"
  else
    let t := lowerChars title
    if searchToken psaLit false t then "PSA"
    else if searchToken bgsLit false t then "BGS"
    else if searchToken cgcLit false t then "CGC"
    else "raw"

/-! ### Marketplace client and listings (`ebay_search_items`, lines 152-165)

A listing summary carries exactly the fields the loop of
`gather_prices_by_grade` reads.  Python floats are modelled as exact
rationals, so the parse `float(item.get("price", {}).get("value"))` is
modelled by its outcome: `priceVal = some p` when the parse succeeds with
value `p`, and `none` when it raises (missing price, missing value, or a
non-numeric string). -/

structure Listing where
  /-- `item.get("title", "")`. -/
  title : String
  /-- outcome of `float(item.get("price", {}).get("value"))`: `none` when
  the conversion raises. -/
  priceVal : Option ℚ
  /-- `item["image"]["imageUrl"]` when `item.get("image")` is truthy and
  holds the key, else `none`. -/
  imageUrl : Option String
  /-- the `imageUrl` fields of the `thumbnailImages` array; an element is
  `none` when the entry has no (string) `imageUrl`. -/
  thumbUrls : List (Option String)
deriving Repr, DecidableEq

/-- Outcome of the HTTP GET of `ebay_search_items`: either a successful
response whose body holds `itemSummaries` (possibly absent, i.e. `[]`), or
an exception / non-success status (`raise_for_status`). -/
inductive EbayResp where
  | ok (items : List Listing)
  | err
deriving Repr, DecidableEq

/-- `ebay_search_items` (lines 152-165): with an empty OAuth token it
returns `[]` without calling out; on any exception or non-2xx status the
failure is logged and `[]` is returned (never raised to the caller). -/
def ebay_search_items (token : String) (resp : EbayResp) : List Listing :=
  if token = "" then []
  else
    match resp with
    | .ok items => items
    | .err => []

/-! ### Price aggregation and image resolution
(`gather_prices_by_grade`, lines 167-197) -/

/-- The keys of the `grades` dict (line 168). -/
def gradeLabels : List String := ["raw", "PSA", "CGC", "BGS"]

/-- The `grades` dict: one price list per grade label. -/
structure GradeMap where
  raw : List ℚ
  psa : List ℚ
  cgc : List ℚ
  bgs : List ℚ
deriving Repr, DecidableEq

/-- `{"raw": [], "PSA": [], "CGC": [], "BGS": []}` (line 168). -/
def emptyGrades : GradeMap := ⟨[], [], [], []⟩

/-- `grades[bucket]` for a bucket known to be a key (the catch-all arm is
only reached for `"raw"`, since the loop first normalises the bucket). -/
def GradeMap.get (g : GradeMap) (label : String) : List ℚ :=
  if label = "PSA" then g.psa
  else if label = "CGC" then g.cgc
  else if label = "BGS" then g.bgs
  else g.raw

/-- `grades[bucket].append(price)` (line 183). -/
def GradeMap.push (g : GradeMap) (label : String) (p : ℚ) : GradeMap :=
  if label = "PSA" then { g with psa := g.psa ++ [p] }
  else if label = "CGC" then { g with cgc := g.cgc ++ [p] }
  else if label = "BGS" then { g with bgs := g.bgs ++ [p] }
  else { g with raw := g.raw ++ [p] }

/-- Lines 179-181: `bucket = detect_grade_from_title(title); if bucket not
in grades: bucket = "raw"`. -/
def bucketFor (title : String) : String :=
  let b := detect_grade_from_title title
  if b ∈ gradeLabels then b else "raw"

/-- The image-extraction block of one loop iteration (lines 184-194):
primary `image.imageUrl` when truthy, else the first thumbnail's
`imageUrl`; the final `if img:` drops falsy (empty) strings; `none` when
the listing yields no (non-empty) image. -/
def listingImage (it : Listing) : Option String :=
  let img0 : Option String :=
    match it.imageUrl with
    | some s => if s = "" then none else some s
    | none => none
  let img1 : Option String :=
    match img0 with
    | some s => some s
    | none =>
      match it.thumbUrls with
      | [] => none
      | o :: _ => o
  match img1 with
  | some s => if s = "" then none else some s
  | none => none

/-- One iteration of the `for item in items` loop (lines 172-194).  A
listing whose price fails to parse hits `continue` (line 178), skipping
both the bucket update and the image block.  The state is the `grades`
dict together with the current `image_url` (`none` while still unset;
once set it is a non-empty string and `if not image_url:` blocks further
updates). -/
def gatherStep (st : GradeMap × Option String) (item : Listing) :
    GradeMap × Option String :=
  match item.priceVal with
  | none => st
  | some price =>
      let bucket := bucketFor item.title
      let g :=
        if (st.1.get bucket).length < SEARCH_LIMIT_PER_GRADE then
          st.1.push bucket price
        else st.1
      let img :=
        match st.2 with
        | some u => some u
        | none => listingImage item
      (g, img)

/-- Python `x or y or ""` over the two provider results, with `None` and
`""` both falsy. -/
def strTruthy (o : Option String) : Option String :=
  match o with
  | some s => if s = "" then none else some s
  | none => none

/-- Line 196: `google_image_search(card_name) or duckduckgo_image(card_name)
or ""`. -/
def fallbackImage (googleRes duckRes : Option String) : String :=
  match strTruthy googleRes with
  | some s => s
  | none =>
    match strTruthy duckRes with
    | some s => s
    | none => ""

/-- The loop plus the fallback of `gather_prices_by_grade` (lines 168-197)
applied to an already-fetched listing list; `googleRes` / `duckRes` are the
responses the two image providers would give for this card name. -/
def gatherFromItems (items : List Listing) (googleRes duckRes : Option String) :
    GradeMap × String :=
  let st := items.foldl gatherStep (emptyGrades, none)
  (st.1,
   match st.2 with
   | some u => u
   | none => fallbackImage googleRes duckRes)

/-- The external world of one pipeline run: the eBay OAuth token, the eBay
response per marketplace id, and the two image providers' results for the
queried card name. -/
structure Env where
  token : String
  resp : String → EbayResp
  googleRes : Option String
  duckRes : Option String

/-- `region.upper()`, character by character (ASCII uppering agrees with
Python's `str.upper` on the inputs exercised here). -/
def upperChars (region : String) : List Char := region.toList.map Char.toUpper

/-- Line 170: `"EBAY_AU" if region.upper()=="AU" else "EBAY_US"`. -/
def regionToMp (region : String) : String :=
  if upperChars region = ['A', 'U'] then "EBAY_AU" else "EBAY_US"

/-- `gather_prices_by_grade(card_name, region)` (lines 167-197). -/
def gather_prices_by_grade (env : Env) (region : String) : GradeMap × String :=
  gatherFromItems (ebay_search_items env.token (env.resp (regionToMp region)))
    env.googleRes env.duckRes

/-! ### The average step (line 248 of `api_search`, line 266 of
`api_refresh`) -/

/-- Python `round(q, 2)`: round-half-to-even at two decimal places. -/
def round2 (q : ℚ) : ℚ :=
  let f : ℤ := ⌊q * 100⌋
  let frac : ℚ := q * 100 - f
  (if frac < 1 / 2 then f
   else if 1 / 2 < frac then f + 1
   else if f % 2 = 0 then f else f + 1) / 100

/-- `round(sum(v)/len(v), 2) if v else 0` for one bucket. -/
def avgOf (v : List ℚ) : ℚ :=
  if v = [] then 0 else round2 (v.sum / (v.length : ℚ))

/-- The `avg` dict of line 248 / line 266. -/
structure GradeAvg where
  raw : ℚ
  psa : ℚ
  cgc : ℚ
  bgs : ℚ
deriving Repr, DecidableEq

/-- `{k: round(sum(v)/len(v),2) if v else 0 for k,v in grades.items()}`. -/
def avgPayload (g : GradeMap) : GradeAvg :=
  ⟨avgOf g.raw, avgOf g.psa, avgOf g.cgc, avgOf g.bgs⟩

/-- `{"avg": avg, "prices": grades}` (line 249; JSON serialisation is
abstracted away). -/
structure Payload where
  avg : GradeAvg
  prices : GradeMap
deriving Repr, DecidableEq

def mkPayload (g : GradeMap) : Payload := ⟨avgPayload g, g⟩

/-! ### The search record store (`searches` table, lines 58-69, and the
route handlers, lines 244-291)

All four handlers touch at most the single row keyed by the authenticated
user's id and the submitted `card_name` (the `where` clauses of lines 251,
261, 274, and the per-row loop of 284-290).  The store state relevant to
one (user, card) pair is therefore `Option SearchRecord`: the row, or
`none` when no row exists.  Times are absolute seconds. -/

structure SearchRecord where
  region : String
  last_result : Payload
  last_image : String
  /-- `last_updated` column; `none` covers NULL and the empty string (both
  falsy for line 289's `not last_updated`). -/
  last_updated : Option ℚ
  confirmed : Bool
deriving Repr, DecidableEq

/-- `api_search` (lines 244-256) acting on the row for the submitted
(user, card): runs the pipeline with the caller-supplied region, then
updates the row (existing row: `last_result`, `last_image`,
`last_updated`, `confirmed=False` — line 253) or inserts a fresh one with
the supplied region (line 255).  Returns the new row plus the response
payload and image. -/
def api_search (row : Option SearchRecord) (region : String) (env : Env)
    (now : ℚ) : Option SearchRecord × Payload × String :=
  let r := gather_prices_by_grade env region
  let payload := mkPayload r.1
  let row' : Option SearchRecord :=
    match row with
    | some rec =>
        some { rec with
                last_result := payload, last_image := r.2,
                last_updated := some now, confirmed := false }
    | none =>
        some { region := region, last_result := payload, last_image := r.2,
               last_updated := some now, confirmed := false }
  (row', payload, r.2)

/-- `api_refresh` (lines 258-269): 404 when no row exists (line 263,
raised before any write); otherwise re-runs the pipeline with the row's
stored region (line 264) and overwrites `last_result`, `last_image`,
`last_updated`, `confirmed=False` (line 268).  The error value is the
HTTP status code. -/
def api_refresh (row : Option SearchRecord) (env : Env) (now : ℚ) :
    Except Nat (SearchRecord × GradeAvg × String) :=
  match row with
  | none => .error 404
  | some rec =>
      let r := gather_prices_by_grade env rec.region
      let avg := avgPayload r.1
      .ok ({ rec with
              last_result := ⟨avg, r.1⟩, last_image := r.2,
              last_updated := some now, confirmed := false },
           avg, r.2)

/-- `api_confirm_image` (lines 271-279): 404 when no row exists (line 276,
raised before any write); otherwise overwrites `last_image`, sets
`confirmed=True` and stamps `last_updated` (line 278), touching nothing
else. -/
def api_confirm_image (row : Option SearchRecord) (image_url : String)
    (now : ℚ) : Except Nat SearchRecord :=
  match row with
  | none => .error 404
  | some rec =>
      .ok { rec with
             last_image := image_url, confirmed := true,
             last_updated := some now }

/-- The `expired` flag computed per row by `api_saved` (line 289):
`not last_updated or (datetime.utcnow() - last_updated >
timedelta(days=SAVED_SEARCH_EXPIRY_DAYS))`. -/
def savedExpired (rec : SearchRecord) (now : ℚ) : Bool :=
  match rec.last_updated with
  | none => true
  | some t => decide (now - t > (SAVED_SEARCH_EXPIRY_DAYS : ℚ) * 86400)

/-- One state-changing operation on the row of a fixed (user, card). -/
inductive StoreOp where
  | search (region : String) (env : Env) (now : ℚ)
  | refresh (env : Env) (now : ℚ)
  | confirm (image_url : String) (now : ℚ)

/-- Effect of an operation on the stored row; a 404 (which the handlers
raise before any write) leaves the row as it was. -/
def applyOp (row : Option SearchRecord) : StoreOp → Option SearchRecord
  | .search region env now => (api_search row region env now).1
  | .refresh env now =>
      match api_refresh row env now with
      | .ok out => some out.1
      | .error _ => row
  | .confirm url now =>
      match api_confirm_image row url now with
      | .ok rec => some rec
      | .error _ => row

/-- A sequence of operations applied in order. -/
def runOps (row : Option SearchRecord) (ops : List StoreOp) :
    Option SearchRecord :=
  ops.foldl applyOp row

/-! ### Auth (`login_for_access_token`, lines 235-241, and
`create_access_token`, lines 84-88)

`bcrypt` verification is abstracted as an oracle `verify : password →
stored hash → Bool`; the JWT encoding is abstracted to the claims it
signs. -/

structure UserRow where
  username : String
  password_hash : String
deriving Repr, DecidableEq

/-- The claims of the issued JWT: `{"sub": username, "exp": expiry}`. -/
structure TokenClaims where
  sub : String
  exp : ℚ
deriving Repr, DecidableEq

/-- `create_access_token` (lines 84-88) on `data={"sub": sub}`: expiry is
`utcnow() + (expires_delta or timedelta(minutes=ACCESS_TOKEN_EXPIRE_MINUTES))`
in seconds. -/
def create_access_token (sub : String) (now : ℚ)
    (expires_delta : Option ℚ) : TokenClaims :=
  { sub := sub,
    exp := now +
      match expires_delta with
      | some d => d
      | none => (ACCESS_TOKEN_EXPIRE_MINUTES : ℚ) * 60 }

/-- `login_for_access_token` (lines 235-241): fetch the user row by
username; `if not user or not verify_password(...)` raise
`HTTPException(400)`; otherwise issue the bearer token for the stored
username.  The error value is the HTTP status code. -/
def login_for_access_token (db : List UserRow)
    (verify : String → String → Bool) (username password : String)
    (now : ℚ) : Except Nat (TokenClaims × String) :=
  match db.find? (fun u => u.username == username) with
  | none => .error 400
  | some u =>
      if verify password u.password_hash then
        .ok (create_access_token u.username now none, "bearer")
      else .error 400

/-! ### Specification-side helper definitions -/

/-- The prices, in encounter order, of the listings whose price parses and
whose (normalised) bucket is `label`. -/
def encounterPrices (items : List Listing) (label : String) : List ℚ :=
  items.filterMap fun it =>
    match it.priceVal with
    | none => none
    | some p => if bucketFor it.title = label then some p else none

/-- The image of the first listing that both parses a price and yields a
non-empty image URL. -/
def firstMarketImage (items : List Listing) : Option String :=
  (items.filterMap fun it =>
    match it.priceVal with
    | none => none
    | some _ => listingImage it).head?

/-- Following the spec's words: "the mean of that list rounded to 2 decimal
places (0 if the list is empty)" — stated independently of the code-side
`avgOf` so the two can be compared. -/
def specBucketAverage (l : List ℚ) : ℚ :=
  if l = [] then 0 else round2 (l.sum / (l.length : ℚ))

/-- The prefix `pre` places a word boundary before a following word
character: it is empty or ends in a non-word character. -/
def noWordEnd (pre : List Char) : Bool :=
  match pre.getLast? with
  | none => true
  | some c => !isWordChar c

/-! ### Sanity checks of the classifier embedding -/

example : detect_grade_from_title "PSA 10 Charizard" = "PSA" := by decide

example : detect_grade_from_title "BGS 9.5 mint" = "BGS" := by decide

example : detect_grade_from_title "CGC-8 slab" = "CGC" := by decide

example : detect_grade_from_title "shining magikarp" = "raw" := by decide

example : detect_grade_from_title "" = "raw" := by decide

example : detect_grade_from_title "XPSA 10" = "raw" := by decide

example : detect_grade_from_title "PSA 105" = "raw" := by decide

example : detect_grade_from_title "PSA 10 BGS 9.5" = "PSA" := by decide

/-! ### Classifier lemmas -/

/-- `re.search` succeeds whenever the body of the pattern matches at some
position with a word boundary just before it. -/
theorem searchToken_append (lit : List Char) :
    ∀ (pre : List Char) (m : List Char) (prevWord : Bool),
      litThenNumber lit m = true →
      (pre = [] → prevWord = false) →
      (∀ c, pre.getLast? = some c → isWordChar c = false) →
      searchToken lit prevWord (pre ++ m) = true := by
  intro pre
  induction pre with
  | nil =>
      intro m prevWord hm hpw _
      have h0 : prevWord = false := hpw rfl
      subst h0
      cases m with
      | nil => simpa [searchToken] using hm
      | cons c rest => simp [searchToken, hm]
  | cons c pre ih =>
      intro m prevWord hm _ hlast
      have hrec : searchToken lit (isWordChar c) (pre ++ m) = true := by
        refine ih m (isWordChar c) hm ?_ ?_
        · intro hnil
          subst hnil
          exact hlast c rfl
        · intro d hd
          refine hlast d ?_
          cases pre with
          | nil => simp at hd
          | cons e pr => simpa [List.getLast?_cons_cons] using hd
      show ((!prevWord && litThenNumber lit (c :: (pre ++ m))) ||
              searchToken lit (isWordChar c) (pre ++ m)) = true
      rw [hrec, Bool.or_true]

theorem litThenNumber_psa10 (post : List Char)
    (h : boundaryAfterWord post = true) :
    litThenNumber psaLit ("psa 10".toList ++ post) = true := by
  have e : "psa 10".toList = ['p', 's', 'a', ' ', '1', '0'] := rfl
  rw [e]
  simp [psaLit, litThenNumber, sepThenNumber, gradeNumber, afterIntDigits,
    isSepChar, isPySpace, h]

theorem litThenNumber_bgs95 (post : List Char) :
    litThenNumber bgsLit ("bgs 9.5".toList ++ post) = true := by
  have e : "bgs 9.5".toList = ['b', 'g', 's', ' ', '9', '.', '5'] := rfl
  rw [e]
  simp [bgsLit, litThenNumber, sepThenNumber, gradeNumber, afterIntDigits,
    isSepChar, isPySpace, boundaryAfterWord, isWordChar]

theorem litThenNumber_cgc8 (post : List Char)
    (h : boundaryAfterWord post = true) :
    litThenNumber cgcLit ("cgc-8".toList ++ post) = true := by
  have e : "cgc-8".toList = ['c', 'g', 'c', '-', '8'] := rfl
  rw [e]
  simp [cgcLit, litThenNumber, sepThenNumber, gradeNumber, afterIntDigits,
    isSepChar, isPySpace, h]

theorem searchToken_of_split (lit tok : List Char) (title : String)
    (pre post : List Char) (h : lowerChars title = pre ++ tok ++ post)
    (hpre : noWordEnd pre = true)
    (hlit : litThenNumber lit (tok ++ post) = true) :
    searchToken lit false (lowerChars title) = true := by
  rw [h, List.append_assoc]
  refine searchToken_append lit pre (tok ++ post) false hlit (fun _ => rfl) ?_
  intro c hc
  rw [noWordEnd, hc] at hpre
  simpa using hpre

theorem title_ne_empty_of_split (title : String) (pre tok post : List Char)
    (h : lowerChars title = pre ++ tok ++ post) (htok : tok ≠ []) :
    title ≠ "" := by
  intro h0
  subst h0
  have h1 : ([] : List Char) = pre ++ tok ++ post := h
  rcases List.append_eq_nil.mp h1.symm with ⟨h2, -⟩
  rcases List.append_eq_nil.mp h2 with ⟨-, h3⟩
  exact htok h3

/-- C2 counterexample: the claim quantifies over every title *containing*
the token, but the patterns carry word boundaries: `"XPSA 10"` contains
`"PSA 10"` yet classifies as `"raw"`, and a title containing `"BGS 9.5"`
can classify as `"PSA"` because the PSA pattern has priority. -/
theorem C2_grade_classifier_counterexample :
    ("XPSA 10" = "X" ++ "PSA 10" ∧
      detect_grade_from_title "XPSA 10" = "raw" ∧
      detect_grade_from_title "XPSA 10" ≠ "PSA") ∧
    ("PSA 10 BGS 9.5" = "PSA 10 " ++ "BGS 9.5" ∧
      detect_grade_from_title "PSA 10 BGS 9.5" = "PSA" ∧
      detect_grade_from_title "PSA 10 BGS 9.5" ≠ "BGS") := by
  exact ⟨⟨rfl, by decide, by decide⟩, ⟨rfl, by decide, by decide⟩⟩

/-- C2 (amended): every title whose lower-cased text contains `"psa 10"`
at word boundaries (the occurrence is at the start or after a non-word
character, and is followed by the end or a non-word character) classifies
as PSA; a word-bounded `"bgs 9.5"` gives BGS provided the
higher-priority PSA pattern does not match; a word-bounded `"cgc-8"`
gives CGC provided neither PSA nor BGS matches; and a title matching no
pattern (the empty title included) gives raw — the patterns being tested
in the fixed order PSA, BGS, CGC with the first match winning. -/
theorem C2_grade_classifier_amended :
    (∀ (title : String) (pre post : List Char),
        lowerChars title = pre ++ "psa 10".toList ++ post →
        noWordEnd pre = true → boundaryAfterWord post = true →
        detect_grade_from_title title = "PSA") ∧
    (∀ (title : String) (pre post : List Char),
        lowerChars title = pre ++ "bgs 9.5".toList ++ post →
        noWordEnd pre = true →
        searchToken psaLit false (lowerChars title) = false →
        detect_grade_from_title title = "BGS") ∧
    (∀ (title : String) (pre post : List Char),
        lowerChars title = pre ++ "cgc-8".toList ++ post →
        noWordEnd pre = true → boundaryAfterWord post = true →
        searchToken psaLit false (lowerChars title) = false →
        searchToken bgsLit false (lowerChars title) = false →
        detect_grade_from_title title = "CGC") ∧
    (∀ title : String,
        searchToken psaLit false (lowerChars title) = false →
        searchToken bgsLit false (lowerChars title) = false →
        searchToken cgcLit false (lowerChars title) = false →
        detect_grade_from_title title = "raw") := by
  refine ⟨?_, ?_, ?_, ?_⟩
  · intro title pre post h hpre hpost
    have hne := title_ne_empty_of_split title pre _ post h (by decide)
    have hs := searchToken_of_split psaLit _ title pre post h hpre
      (litThenNumber_psa10 post hpost)
    simp [detect_grade_from_title, hne, hs]
  · intro title pre post h hpre hpsa
    have hne := title_ne_empty_of_split title pre _ post h (by decide)
    have hs := searchToken_of_split bgsLit _ title pre post h hpre
      (litThenNumber_bgs95 post)
    simp [detect_grade_from_title, hne, hs, hpsa]
  · intro title pre post h hpre hpost hpsa hbgs
    have hne := title_ne_empty_of_split title pre _ post h (by decide)
    have hs := searchToken_of_split cgcLit _ title pre post h hpre
      (litThenNumber_cgc8 post hpost)
    simp [detect_grade_from_title, hne, hs, hpsa, hbgs]
  · intro title hpsa hbgs hcgc
    by_cases hne : title = ""
    · simp [detect_grade_from_title, hne]
    · simp [detect_grade_from_title, hne, hpsa, hbgs, hcgc]

/-- C2 witness: the amended theorem applied at concrete titles. -/
theorem C2_grade_classifier_witness :
    detect_grade_from_title "PSA 10" = "PSA" ∧
    detect_grade_from_title "gem BGS 9.5" = "BGS" ∧
    detect_grade_from_title "CGC-8" = "CGC" ∧
    detect_grade_from_title "charizard holo" = "raw" :=
  ⟨C2_grade_classifier_amended.1 "PSA 10" [] [] (by decide) (by decide)
      (by decide),
   C2_grade_classifier_amended.2.1 "gem BGS 9.5" ['g', 'e', 'm', ' '] []
      (by decide) (by decide) (by decide),
   C2_grade_classifier_amended.2.2.1 "CGC-8" [] [] (by decide) (by decide)
      (by decide) (by decide) (by decide),
   C2_grade_classifier_amended.2.2.2 "charizard holo" (by decide) (by decide)
      (by decide)⟩

/-! ### Aggregation-loop lemmas -/

theorem bucketFor_mem (title : String) : bucketFor title ∈ gradeLabels := by
  rw [bucketFor]
  split
  · assumption
  · simp [gradeLabels]

theorem get_push_self (g : GradeMap) {l : String} (hl : l ∈ gradeLabels)
    (p : ℚ) : (g.push l p).get l = g.get l ++ [p] := by
  simp only [gradeLabels, List.mem_cons, List.not_mem_nil, or_false] at hl
  rcases hl with h | h | h | h <;> subst h <;>
    simp [GradeMap.push, GradeMap.get]

theorem get_push_ne (g : GradeMap) {l k : String} (hl : l ∈ gradeLabels)
    (hk : k ∈ gradeLabels) (hne : k ≠ l) (p : ℚ) :
    (g.push l p).get k = g.get k := by
  simp only [gradeLabels, List.mem_cons, List.not_mem_nil, or_false] at hl hk
  rcases hl with h | h | h | h <;> subst h <;>
    rcases hk with h' | h' | h' | h' <;> subst h' <;>
    first
      | exact absurd rfl hne
      | simp [GradeMap.push, GradeMap.get]

/-- Invariant of the `for item in items` loop for one bucket `k`: the
bucket's list grows by the encounter-ordered parseable prices classified
into `k`, truncated at the per-grade cap. -/
theorem foldl_gatherStep_get (k : String) (hk : k ∈ gradeLabels) :
    ∀ (items : List Listing) (g : GradeMap) (img : Option String),
      ((items.foldl gatherStep (g, img)).1).get k =
        g.get k ++
          (encounterPrices items k).take
            (SEARCH_LIMIT_PER_GRADE - (g.get k).length) := by
  intro items
  induction items with
  | nil => intro g img; simp [encounterPrices]
  | cons it rest ih =>
      intro g img
      rw [List.foldl_cons]
      cases hp : it.priceVal with
      | none =>
          have hstep : gatherStep (g, img) it = (g, img) := by
            simp [gatherStep, hp]
          rw [hstep, ih]
          simp [encounterPrices, List.filterMap_cons, hp]
      | some p =>
          have hstep : gatherStep (g, img) it =
              (if (g.get (bucketFor it.title)).length < SEARCH_LIMIT_PER_GRADE
                then g.push (bucketFor it.title) p else g,
               match img with
               | some u => some u
               | none => listingImage it) := by
            simp [gatherStep, hp]
          rw [hstep]
          by_cases hbk : bucketFor it.title = k
          · rw [hbk]
            have henc : encounterPrices (it :: rest) k =
                p :: encounterPrices rest k := by
              simp [encounterPrices, List.filterMap_cons, hp, hbk]
            by_cases hlen : (g.get k).length < SEARCH_LIMIT_PER_GRADE
            · rw [if_pos hlen, ih, get_push_self g hk p, henc]
              have harith : SEARCH_LIMIT_PER_GRADE - (g.get k).length =
                  (SEARCH_LIMIT_PER_GRADE - ((g.get k).length + 1)) + 1 := by
                simp only [SEARCH_LIMIT_PER_GRADE] at hlen ⊢
                omega
              rw [harith, List.take_succ_cons]
              simp [List.append_assoc]
            · rw [if_neg hlen, ih, henc]
              have h0 : SEARCH_LIMIT_PER_GRADE - (g.get k).length = 0 := by
                simp only [SEARCH_LIMIT_PER_GRADE] at hlen ⊢
                omega
              have h0' : SEARCH_LIMIT_PER_GRADE - (g.get k).length ≤ 1 := by
                omega
              rw [h0]
              simp
          · have henc : encounterPrices (it :: rest) k =
                encounterPrices rest k := by
              simp [encounterPrices, List.filterMap_cons, hp, hbk]
            have hget : (if (g.get (bucketFor it.title)).length <
                  SEARCH_LIMIT_PER_GRADE
                then g.push (bucketFor it.title) p else g).get k = g.get k := by
              split
              · exact get_push_ne g (bucketFor_mem it.title) hk
                  (fun h => hbk h.symm) p
              · rfl
            rw [ih, hget, henc]

/-- Once `image_url` is set, no later listing changes it. -/
theorem foldl_gatherStep_image_some (u : String) :
    ∀ (items : List Listing) (st : GradeMap × Option String),
      st.2 = some u → (items.foldl gatherStep st).2 = some u := by
  intro items
  induction items with
  | nil => intro st hst; exact hst
  | cons it rest ih =>
      intro st hst
      rw [List.foldl_cons]
      refine ih _ ?_
      cases hp : it.priceVal with
      | none => simpa [gatherStep, hp] using hst
      | some p => simp [gatherStep, hp, hst]

/-- While `image_url` is unset, the loop resolves the image of the first
price-parseable listing that yields one. -/
theorem foldl_gatherStep_image_none :
    ∀ (items : List Listing) (g : GradeMap),
      (items.foldl gatherStep (g, none)).2 = firstMarketImage items := by
  intro items
  induction items with
  | nil => intro g; rfl
  | cons it rest ih =>
      intro g
      rw [List.foldl_cons]
      cases hp : it.priceVal with
      | none =>
          have hstep : gatherStep (g, none) it = (g, none) := by
            simp [gatherStep, hp]
          rw [hstep, ih]
          simp [firstMarketImage, List.filterMap_cons, hp]
      | some p =>
          have h2 : (gatherStep (g, none) it).2 = listingImage it := by
            simp [gatherStep, hp]
          cases hli : listingImage it with
          | none =>
              have hstep : gatherStep (g, none) it =
                  ((gatherStep (g, none) it).1, none) := by
                simp [gatherStep, hp, hli]
              rw [hstep, ih]
              simp [firstMarketImage, List.filterMap_cons, hp, hli]
          | some u =>
              rw [foldl_gatherStep_image_some u rest _ (h2.trans hli)]
              simp [firstMarketImage, List.filterMap_cons, hp, hli]

/-- C1: for every listing list, each of the four grade buckets collects at
most `SEARCH_LIMIT_PER_GRADE = 3` prices, namely the first three
parseable prices classified into that bucket in encounter order, and the
average step of `api_search` / `api_refresh` maps each bucket to the mean
of exactly that collected list rounded to 2 decimal places (0 when the
list is empty). -/
theorem C1_price_aggregation (items : List Listing)
    (googleRes duckRes : Option String) :
    ((gatherFromItems items googleRes duckRes).1.raw =
        (encounterPrices items "raw").take SEARCH_LIMIT_PER_GRADE ∧
      (gatherFromItems items googleRes duckRes).1.psa =
        (encounterPrices items "PSA").take SEARCH_LIMIT_PER_GRADE ∧
      (gatherFromItems items googleRes duckRes).1.cgc =
        (encounterPrices items "CGC").take SEARCH_LIMIT_PER_GRADE ∧
      (gatherFromItems items googleRes duckRes).1.bgs =
        (encounterPrices items "BGS").take SEARCH_LIMIT_PER_GRADE) ∧
    ((gatherFromItems items googleRes duckRes).1.raw.length ≤ 3 ∧
      (gatherFromItems items googleRes duckRes).1.psa.length ≤ 3 ∧
      (gatherFromItems items googleRes duckRes).1.cgc.length ≤ 3 ∧
      (gatherFromItems items googleRes duckRes).1.bgs.length ≤ 3) ∧
    avgPayload (gatherFromItems items googleRes duckRes).1 =
      ⟨specBucketAverage (gatherFromItems items googleRes duckRes).1.raw,
       specBucketAverage (gatherFromItems items googleRes duckRes).1.psa,
       specBucketAverage (gatherFromItems items googleRes duckRes).1.cgc,
       specBucketAverage (gatherFromItems items googleRes duckRes).1.bgs⟩ := by
  have hraw := foldl_gatherStep_get "raw" (by simp [gradeLabels])
    items emptyGrades none
  have hpsa := foldl_gatherStep_get "PSA" (by simp [gradeLabels])
    items emptyGrades none
  have hcgc := foldl_gatherStep_get "CGC" (by simp [gradeLabels])
    items emptyGrades none
  have hbgs := foldl_gatherStep_get "BGS" (by simp [gradeLabels])
    items emptyGrades none
  have eraw : emptyGrades.raw = ([] : List ℚ) := rfl
  have epsa : emptyGrades.psa = ([] : List ℚ) := rfl
  have ecgc : emptyGrades.cgc = ([] : List ℚ) := rfl
  have ebgs : emptyGrades.bgs = ([] : List ℚ) := rfl
  simp only [GradeMap.get, String.reduceEq, reduceIte] at hraw hpsa hcgc hbgs
  simp only [eraw, epsa, ecgc, ebgs, List.length_nil, Nat.sub_zero,
    List.nil_append] at hraw hpsa hcgc hbgs
  have hG : (gatherFromItems items googleRes duckRes).1 =
      (items.foldl gatherStep (emptyGrades, none)).1 := rfl
  refine ⟨⟨?_, ?_, ?_, ?_⟩, ⟨?_, ?_, ?_, ?_⟩, rfl⟩ <;> rw [hG]
  · exact hraw
  · exact hpsa
  · exact hcgc
  · exact hbgs
  · rw [hraw]; simp [List.length_take, SEARCH_LIMIT_PER_GRADE]
  · rw [hpsa]; simp [List.length_take, SEARCH_LIMIT_PER_GRADE]
  · rw [hcgc]; simp [List.length_take, SEARCH_LIMIT_PER_GRADE]
  · rw [hbgs]; simp [List.length_take, SEARCH_LIMIT_PER_GRADE]

/-- C3 counterexample: a listing whose price fails to parse hits
`continue`, which also skips the image block — so the first listing, whose
image extraction would yield an image, is NOT the one whose image is
captured; the second (parseable) listing's image is. -/
theorem C3_price_parse_counterexample :
    listingImage ⟨"pikachu card", none, some "http://img.example/a.png", []⟩ =
        some "http://img.example/a.png" ∧
    (gatherFromItems
        [⟨"pikachu card", none, some "http://img.example/a.png", []⟩,
         ⟨"pikachu card", some 5, some "http://img.example/b.png", []⟩]
        none none).2 = "http://img.example/b.png" ∧
    "http://img.example/b.png" ≠ "http://img.example/a.png" := by
  refine ⟨by decide, by decide, by decide⟩

/-- C3 (amended): a listing whose price fails numeric parsing is skipped
entirely — it contributes neither a price nor an image candidate; one loop
iteration on such a listing leaves the whole loop state unchanged. -/
theorem C3_price_parse_amended (st : GradeMap × Option String)
    (item : Listing) (h : item.priceVal = none) : gatherStep st item = st := by
  simp [gatherStep, h]

/-- C3 witness: the amended theorem applied at a concrete unparseable
listing. -/
theorem C3_price_parse_witness :
    (⟨"eevee promo", none, some "http://img.example/c.png", []⟩ :
        Listing).priceVal = none ∧
    gatherStep (emptyGrades, none)
        ⟨"eevee promo", none, some "http://img.example/c.png", []⟩ =
      (emptyGrades, none) :=
  ⟨rfl, C3_price_parse_amended (emptyGrades, none) _ rfl⟩

/-- C7: when the marketplace call raises or returns a non-success status,
`ebay_search_items` absorbs the failure into an empty listing list (the
pipeline is a total function — nothing propagates to the caller), all four
buckets come out empty with averages 0, and the image falls through to the
external image-search fallback chain. -/
theorem C7_marketplace_failure_degrades (env : Env) (region : String)
    (herr : env.resp (regionToMp region) = .err) :
    gather_prices_by_grade env region =
      (emptyGrades, fallbackImage env.googleRes env.duckRes) ∧
    avgPayload (gather_prices_by_grade env region).1 =
      ⟨0, 0, 0, 0⟩ := by
  have hitems : ebay_search_items env.token (env.resp (regionToMp region)) =
      [] := by
    rw [herr]
    simp [ebay_search_items]
  constructor
  · rw [gather_prices_by_grade, hitems]
    rfl
  · rw [gather_prices_by_grade, hitems]
    rfl

/-- C7 witness: a concrete failing environment. -/
theorem C7_witness :
    (⟨"tok", fun _ => EbayResp.err, some "http://img.example/g2.png", none⟩ :
        Env).resp (regionToMp "AU") = EbayResp.err ∧
    gather_prices_by_grade
        ⟨"tok", fun _ => EbayResp.err, some "http://img.example/g2.png", none⟩
        "AU" = (emptyGrades, "http://img.example/g2.png") :=
  ⟨rfl,
   ((C7_marketplace_failure_degrades
        ⟨"tok", fun _ => EbayResp.err, some "http://img.example/g2.png", none⟩
        "AU" rfl).1).trans (by decide)⟩

/-- C8 counterexample: the first listing that would yield a non-empty
image URL has an unparseable price, so the loop's `continue` skips it and
the image of the second listing is captured instead — the claim's "first
listing that yields a non-empty image URL" does not win. -/
theorem C8_image_resolution_counterexample :
    listingImage ⟨"mew ex", none, some "http://img.example/first.png", []⟩ =
        some "http://img.example/first.png" ∧
    (gatherFromItems
        [⟨"mew ex", none, some "http://img.example/first.png", []⟩,
         ⟨"mew ex", some 2, none, [some "http://img.example/second.png"]⟩]
        none none).2 = "http://img.example/second.png" ∧
    "http://img.example/second.png" ≠ "http://img.example/first.png" := by
  refine ⟨by decide, by decide, by decide⟩

/-- C8 (amended): image resolution takes the image of the first listing
with a parseable price that yields a non-empty image URL (primary image
field, else first thumbnail) and ignores all later marketplace candidates;
if no such listing yields an image, the first provider's (truthy) answer
is used, the second provider's only when the first returned nothing, and
the empty string when both return nothing. -/
theorem C8_image_resolution_amended :
    (∀ (items : List Listing) (googleRes duckRes : Option String),
        (gatherFromItems items googleRes duckRes).2 =
          match firstMarketImage items with
          | some u => u
          | none => fallbackImage googleRes duckRes) ∧
    (∀ (googleRes duckRes : Option String) (s : String),
        strTruthy googleRes = some s →
        ∀ duckRes2 : Option String,
          fallbackImage googleRes duckRes = s ∧
          fallbackImage googleRes duckRes2 = s) ∧
    (∀ (googleRes duckRes : Option String) (s : String),
        strTruthy googleRes = none → strTruthy duckRes = some s →
        fallbackImage googleRes duckRes = s) ∧
    (∀ googleRes duckRes : Option String,
        strTruthy googleRes = none → strTruthy duckRes = none →
        fallbackImage googleRes duckRes = "") := by
  refine ⟨?_, ?_, ?_, ?_⟩
  · intro items googleRes duckRes
    have h := foldl_gatherStep_image_none items emptyGrades
    show (match (items.foldl gatherStep (emptyGrades, none)).2 with
          | some u => u
          | none => fallbackImage googleRes duckRes) = _
    rw [h]
  · intro googleRes duckRes s h duckRes2
    constructor <;> simp [fallbackImage, h]
  · intro googleRes duckRes s h1 h2
    simp [fallbackImage, h1, h2]
  · intro googleRes duckRes h1 h2
    simp [fallbackImage, h1, h2]

/-- C8 witness: the amended theorem applied at concrete inputs — an empty
listing list with a falsy first provider and a truthy second one, and the
fallback chain at concrete provider answers. -/
theorem C8_image_resolution_witness :
    (gatherFromItems [] (some "") (some "http://img.example/duck.png")).2 =
      "http://img.example/duck.png" ∧
    fallbackImage (some "http://img.example/g.png") none =
      "http://img.example/g.png" ∧
    fallbackImage none none = "" :=
  ⟨(C8_image_resolution_amended.1 [] (some "")
      (some "http://img.example/duck.png")).trans (by decide),
   (C8_image_resolution_amended.2.1 (some "http://img.example/g.png") none
      "http://img.example/g.png" (by decide) none).1,
   C8_image_resolution_amended.2.2.2 none none (by decide) (by decide)⟩

/-! ### Record-store lemmas -/

theorem search_confirmed_false (row : Option SearchRecord) (region : String)
    (env : Env) (now : ℚ) (rec : SearchRecord)
    (h : (api_search row region env now).1 = some rec) :
    rec.confirmed = false := by
  cases row with
  | none =>
      simp only [api_search, Option.some.injEq] at h
      rw [← h]
  | some r0 =>
      simp only [api_search, Option.some.injEq] at h
      rw [← h]

theorem refresh_ok_confirmed_false (row : Option SearchRecord) (env : Env)
    (now : ℚ) (out : SearchRecord × GradeAvg × String)
    (h : api_refresh row env now = .ok out) : out.1.confirmed = false := by
  cases row with
  | none => simp [api_refresh] at h
  | some r0 =>
      simp only [api_refresh, Except.ok.injEq] at h
      rw [← h]

theorem confirm_ok_shape (rec : SearchRecord) (url : String) (now : ℚ)
    (out : SearchRecord) (h : api_confirm_image (some rec) url now = .ok out) :
    out = { rec with
             last_image := url, confirmed := true,
             last_updated := some now } := by
  simp only [api_confirm_image, Except.ok.injEq] at h
  exact h.symm

/-- C4 counterexample: at an elapsed time of exactly
`SAVED_SEARCH_EXPIRY_DAYS` (7 days), the strict comparison of line 289
yields `expired = false`, while the claim's inclusive boundary demands
`true`. -/
theorem C4_expiry_counterexample :
    (7 : ℚ) * 86400 - 0 = (SAVED_SEARCH_EXPIRY_DAYS : ℚ) * 86400 ∧
    savedExpired ⟨"AU", mkPayload emptyGrades, "", some 0, false⟩
      ((7 : ℚ) * 86400) = false := by
  constructor
  · norm_num [SAVED_SEARCH_EXPIRY_DAYS]
  · show decide ((7 : ℚ) * 86400 - 0 >
        (SAVED_SEARCH_EXPIRY_DAYS : ℚ) * 86400) = false
    rw [decide_eq_false_iff_not, not_lt]
    norm_num [SAVED_SEARCH_EXPIRY_DAYS]

/-- C4 (amended): the `expired` flag is true iff `last_updated` is absent
or the elapsed time STRICTLY exceeds the 7-day window; exactly 7 days
elapsed is NOT expired (the boundary is exclusive); 8 days elapsed is
expired and 1 day elapsed is not. -/
theorem C4_expiry_amended :
    (∀ (rec : SearchRecord) (now : ℚ),
        savedExpired rec now = true ↔
          rec.last_updated = none ∨
            ∃ t, rec.last_updated = some t ∧
              now - t > (SAVED_SEARCH_EXPIRY_DAYS : ℚ) * 86400) ∧
    (∀ (region : String) (pl : Payload) (img : String) (c : Bool) (t : ℚ),
        savedExpired ⟨region, pl, img, some t, c⟩ (t + 8 * 86400) = true ∧
        savedExpired ⟨region, pl, img, some t, c⟩ (t + 1 * 86400) = false ∧
        savedExpired ⟨region, pl, img, some t, c⟩ (t + 7 * 86400) = false ∧
        savedExpired ⟨region, pl, img, none, c⟩ t = true) := by
  constructor
  · intro rec now
    cases h : rec.last_updated with
    | none => simp [savedExpired, h]
    | some t => simp [savedExpired, h]
  · intro region pl img c t
    refine ⟨?_, ?_, ?_, rfl⟩
    · simp only [savedExpired, decide_eq_true_eq, SAVED_SEARCH_EXPIRY_DAYS]
      push_cast
      linarith
    · simp only [savedExpired, SAVED_SEARCH_EXPIRY_DAYS,
        decide_eq_false_iff_not, not_lt]
      push_cast
      linarith
    · simp only [savedExpired, SAVED_SEARCH_EXPIRY_DAYS,
        decide_eq_false_iff_not, not_lt]
      push_cast
      linarith

/-- C5: `confirmed` is forced to `false` by every search upsert and every
successful refresh; a successful confirm sets it to `true` without
touching `last_result`; and over any operation sequence, a stored record
can only end up `confirmed = true` if the last operation was an explicit
confirm (or the sequence was empty and the record was already
confirmed). -/
theorem C5_confirmed_invariant :
    (∀ (row : Option SearchRecord) (region : String) (env : Env) (now : ℚ)
        (rec : SearchRecord),
        (api_search row region env now).1 = some rec →
        rec.confirmed = false) ∧
    (∀ (row : Option SearchRecord) (env : Env) (now : ℚ)
        (out : SearchRecord × GradeAvg × String),
        api_refresh row env now = .ok out → out.1.confirmed = false) ∧
    (∀ (rec : SearchRecord) (url : String) (now : ℚ) (out : SearchRecord),
        api_confirm_image (some rec) url now = .ok out →
          out.confirmed = true ∧ out.last_result = rec.last_result) ∧
    (∀ (ops : List StoreOp) (row : Option SearchRecord) (rec : SearchRecord),
        runOps row ops = some rec → rec.confirmed = true →
          (∃ url now, ops.getLast? = some (.confirm url now)) ∨
            (ops = [] ∧ row = some rec)) := by
  refine ⟨search_confirmed_false, refresh_ok_confirmed_false, ?_, ?_⟩
  · intro rec url now out h
    rw [confirm_ok_shape rec url now out h]
    exact ⟨rfl, rfl⟩
  · intro ops row rec hrun hconf
    rcases List.eq_nil_or_concat ops with hnil | ⟨init, op, hops⟩
    · subst hnil
      right
      exact ⟨rfl, hrun⟩
    · subst hops
      rw [List.concat_eq_append] at hrun ⊢
      simp only [runOps, List.foldl_append, List.foldl_cons,
        List.foldl_nil] at hrun
      cases op with
      | search region env now =>
          have hc := search_confirmed_false _ region env now rec hrun
          rw [hc] at hconf
          exact absurd hconf (by simp)
      | refresh env now =>
          cases hmid : List.foldl applyOp row init with
          | none =>
              rw [hmid] at hrun
              simp [applyOp, api_refresh] at hrun
          | some r0 =>
              rw [hmid] at hrun
              simp only [applyOp, api_refresh, Option.some.injEq] at hrun
              rw [← hrun] at hconf
              exact absurd hconf (by simp)
      | confirm url now =>
          left
          exact ⟨url, now, by rw [List.getLast?_concat]⟩

/-- C5 witness: the conjuncts applied at concrete rows, environments and
operation sequences. -/
theorem C5_witness :
    ((api_search none "AU" ⟨"", fun _ => EbayResp.err, none, none⟩ 0).1 =
        some ⟨"AU", mkPayload emptyGrades, "", some 0, false⟩ ∧
      (⟨"AU", mkPayload emptyGrades, "", some 0, false⟩ :
          SearchRecord).confirmed = false) ∧
    (api_refresh (some ⟨"US", mkPayload emptyGrades, "", none, true⟩)
        ⟨"", fun _ => EbayResp.err, none, none⟩ 1 =
        .ok (⟨"US", mkPayload emptyGrades, "", some 1, false⟩,
             avgPayload emptyGrades, "") ∧
      (⟨"US", mkPayload emptyGrades, "", some 1, false⟩ :
          SearchRecord).confirmed = false) ∧
    (api_confirm_image (some ⟨"AU", mkPayload emptyGrades, "", some 0, false⟩)
        "http://img.example/pick.png" 2 =
        .ok ⟨"AU", mkPayload emptyGrades, "http://img.example/pick.png",
             some 2, true⟩ ∧
      (⟨"AU", mkPayload emptyGrades, "http://img.example/pick.png", some 2,
          true⟩ : SearchRecord).confirmed = true ∧
      (⟨"AU", mkPayload emptyGrades, "http://img.example/pick.png", some 2,
          true⟩ : SearchRecord).last_result =
        (⟨"AU", mkPayload emptyGrades, "", some 0, false⟩ :
            SearchRecord).last_result) ∧
    (runOps (some ⟨"AU", mkPayload emptyGrades, "", some 0, false⟩)
        [.confirm "http://img.example/z.png" 3] =
        some ⟨"AU", mkPayload emptyGrades, "http://img.example/z.png",
             some 3, true⟩ ∧
      (∃ url now,
          ([StoreOp.confirm "http://img.example/z.png" 3].getLast? =
            some (.confirm url now))) ∨
        ([StoreOp.confirm "http://img.example/z.png" 3] = [] ∧
          (some ⟨"AU", mkPayload emptyGrades, "", some 0, false⟩ :
              Option SearchRecord) =
            some ⟨"AU", mkPayload emptyGrades, "http://img.example/z.png",
                 some 3, true⟩)) := by
  refine ⟨⟨rfl, ?_⟩, ⟨rfl, ?_⟩, ⟨rfl, ?_⟩, ?_⟩
  · exact C5_confirmed_invariant.1 none "AU"
      ⟨"", fun _ => EbayResp.err, none, none⟩ 0
      ⟨"AU", mkPayload emptyGrades, "", some 0, false⟩ rfl
  · exact (C5_confirmed_invariant.2.1
      (some ⟨"US", mkPayload emptyGrades, "", none, true⟩)
      ⟨"", fun _ => EbayResp.err, none, none⟩ 1
      (⟨"US", mkPayload emptyGrades, "", some 1, false⟩,
        avgPayload emptyGrades, "") rfl)
  · exact C5_confirmed_invariant.2.2.1
      ⟨"AU", mkPayload emptyGrades, "", some 0, false⟩
      "http://img.example/pick.png" 2
      ⟨"AU", mkPayload emptyGrades, "http://img.example/pick.png", some 2,
        true⟩ rfl
  · left
    refine ⟨rfl, ?_⟩
    rcases C5_confirmed_invariant.2.2.2
        [.confirm "http://img.example/z.png" 3]
        (some ⟨"AU", mkPayload emptyGrades, "", some 0, false⟩)
        ⟨"AU", mkPayload emptyGrades, "http://img.example/z.png", some 3,
          true⟩ rfl rfl with h | h
    · exact h
    · exact absurd h.1 (by simp)

/-- C6: refresh and confirm-image on a missing (user, card) record fail
with a 404 error raised before any write (the store is unchanged), and on
an existing record refresh re-runs the pipeline with the record's stored
region — it has no region argument — overwriting result, image and
timestamp. -/
theorem C6_missing_record_404 :
    (∀ (env : Env) (now : ℚ), api_refresh none env now = .error 404) ∧
    (∀ (url : String) (now : ℚ),
        api_confirm_image none url now = .error 404) ∧
    (∀ (env : Env) (now : ℚ), applyOp none (.refresh env now) = none) ∧
    (∀ (url : String) (now : ℚ), applyOp none (.confirm url now) = none) ∧
    (∀ (rec : SearchRecord) (env : Env) (now : ℚ),
        api_refresh (some rec) env now =
          .ok ({ rec with
                  last_result :=
                    mkPayload (gather_prices_by_grade env rec.region).1,
                  last_image := (gather_prices_by_grade env rec.region).2,
                  last_updated := some now, confirmed := false },
               avgPayload (gather_prices_by_grade env rec.region).1,
               (gather_prices_by_grade env rec.region).2)) :=
  ⟨fun _ _ => rfl, fun _ _ => rfl, fun _ _ => rfl, fun _ _ => rfl,
   fun _ _ _ => rfl⟩

/-- C10: re-searching an existing record with a different region computes
the returned payload with the caller-supplied region but leaves the stored
`region` column unchanged (only result, image, timestamp and confirmed are
overwritten), so a later refresh uses the originally stored region. -/
theorem C10_search_region_frame :
    (∀ (rec : SearchRecord) (region : String) (env : Env) (now : ℚ),
        api_search (some rec) region env now =
          (some { rec with
                   last_result :=
                     mkPayload (gather_prices_by_grade env region).1,
                   last_image := (gather_prices_by_grade env region).2,
                   last_updated := some now, confirmed := false },
           mkPayload (gather_prices_by_grade env region).1,
           (gather_prices_by_grade env region).2)) ∧
    (∀ (rec : SearchRecord) (region : String) (env : Env) (now : ℚ),
        Option.map SearchRecord.region
            (api_search (some rec) region env now).1 = some rec.region) ∧
    (∀ (rec : SearchRecord) (region : String) (env : Env) (now : ℚ)
        (env2 : Env) (now2 : ℚ),
        api_refresh ((api_search (some rec) region env now).1) env2 now2 =
          .ok ({ rec with
                  last_result :=
                    mkPayload (gather_prices_by_grade env2 rec.region).1,
                  last_image := (gather_prices_by_grade env2 rec.region).2,
                  last_updated := some now2, confirmed := false },
               avgPayload (gather_prices_by_grade env2 rec.region).1,
               (gather_prices_by_grade env2 rec.region).2)) :=
  ⟨fun _ _ _ _ => rfl, fun _ _ _ _ => rfl, fun _ _ _ _ _ _ => rfl⟩

/-- C9 counterexample: the login failure status is 400 (Bad Request), not
an Unauthorized-class (401) error — line 239 raises
`HTTPException(status_code=400)`. -/
theorem C9_login_counterexample :
    login_for_access_token [] (fun _ _ => true) "alice" "hunter2" 0 =
      .error 400 ∧
    (400 : Nat) ≠ 401 := ⟨rfl, by decide⟩

/-- C9 (amended): a login with an unknown username, or a password that
fails verification against the stored hash, fails with the generic
400-class error (the code uses 400 Bad Request, not a 401
Unauthorized-class status); valid credentials yield a bearer token whose
claims carry the stored username and a fixed expiry of
`ACCESS_TOKEN_EXPIRE_MINUTES` from now. -/
theorem C9_login_amended :
    (∀ (db : List UserRow) (verify : String → String → Bool)
        (username password : String) (now : ℚ),
        db.find? (fun w => w.username == username) = none →
        login_for_access_token db verify username password now =
          .error 400) ∧
    (∀ (db : List UserRow) (verify : String → String → Bool)
        (username password : String) (now : ℚ) (u : UserRow),
        db.find? (fun w => w.username == username) = some u →
        verify password u.password_hash = false →
        login_for_access_token db verify username password now =
          .error 400) ∧
    (∀ (db : List UserRow) (verify : String → String → Bool)
        (username password : String) (now : ℚ) (u : UserRow),
        db.find? (fun w => w.username == username) = some u →
        verify password u.password_hash = true →
        login_for_access_token db verify username password now =
          .ok (⟨u.username,
                now + (ACCESS_TOKEN_EXPIRE_MINUTES : ℚ) * 60⟩, "bearer")) := by
  refine ⟨?_, ?_, ?_⟩
  · intro db verify username password now h
    rw [login_for_access_token, h]
  · intro db verify username password now u h hv
    rw [login_for_access_token, h]
    simp [hv]
  · intro db verify username password now u h hv
    rw [login_for_access_token, h]
    simp [hv, create_access_token]

/-- C9 witness: the amended theorem at a concrete user table. -/
theorem C9_witness :
    login_for_access_token [] (fun _ _ => true) "bob" "pw" 0 = .error 400 ∧
    login_for_access_token [⟨"bob", "h"⟩] (fun _ _ => false) "bob" "pw" 0 =
      .error 400 ∧
    login_for_access_token [⟨"bob", "h"⟩] (fun _ _ => true) "bob" "pw" 0 =
      .ok (⟨"bob", 0 + (ACCESS_TOKEN_EXPIRE_MINUTES : ℚ) * 60⟩, "bearer") :=
  ⟨C9_login_amended.1 [] (fun _ _ => true) "bob" "pw" 0 rfl,
   C9_login_amended.2.1 [⟨"bob", "h"⟩] (fun _ _ => false) "bob" "pw" 0
     ⟨"bob", "h"⟩ (by decide) rfl,
   C9_login_amended.2.2 [⟨"bob", "h"⟩] (fun _ _ => true) "bob" "pw" 0
     ⟨"bob", "h"⟩ (by decide) rfl⟩

end PokeSearch
